import Mathlib

/-!
Verification of the `benchmark.c` harness (repository `qoy_rvv`).

The C program is shallowly embedded below.  External effects are modelled by
an oracle environment `Env`: the result of `stat` on a path, the entry list
returned by `readdir`, the result of `stbi_load`, and the successive values
returned by the monotonic clock `ns()` during one image's benchmarking pass.
The observable behaviour of a run is the final global statistics, the list of
printed lines, the process exit code, and a trace of the benchmarking events
(routine invocations, `memset` calls and `ns()` clock reads), which lets us
state where the timed regions lie.

Printed floating-point averages are modelled exactly, over `ℚ`: the C code
performs the divisions `sum / runs / 1.0e6` and `sum / (count*runs) / 1.0e6`
on exact integer numerators, and the claims under study are about the values
of those quotients, not about rounding.
-/

/-- Result of `stat(path, &st)` followed by the `S_ISDIR`/`S_ISREG` tests:
a directory, a regular file, something else, or `stat` failed. -/
inductive StatKind where
  | dir
  | reg
  | other
  | noStat
deriving DecidableEq

/-- A decoded image as returned by `stbi_load` with forced 4 channels:
only the dimensions matter to the harness' control flow. -/
structure Image where
  width : Nat
  height : Nat
deriving DecidableEq

/-- Oracle for the program's environment: filesystem metadata, directory
entries, the image decoder, and the clock.  `clk path i` is the value of the
`i`-th `ns()` call made while benchmarking `path`. -/
structure Env where
  statKind : String → StatKind
  readdir : String → Option (List String)
  load : String → Option Image
  clk : String → Nat → Nat

/-- The global accumulators `g_sum_c_time_ns`, `g_sum_rvv_time_ns`,
`g_image_count` of `benchmark.c`. -/
structure GlobalStats where
  g_sum_c_time_ns : Nat
  g_sum_rvv_time_ns : Nat
  g_image_count : Nat
deriving DecidableEq

/-- The initial values of the global accumulators (all zero). -/
def initStats : GlobalStats := ⟨0, 0, 0⟩

/-- The two candidate routines: `qoy_rgba_to_ycbcra` (the scalar baseline,
`c`) and `qoy_rgba_to_ycbcra_rvv` (the accelerated variant, `rvv`). -/
inductive Routine where
  | c
  | rvv
deriving DecidableEq

/-- One event of a benchmarking pass: a `memset(out, 0, size)` of a routine's
output buffer, a read of the monotonic clock `ns()` returning `t`, or an
invocation of a candidate routine. -/
inductive Ev where
  | memset (r : Routine) (size : Nat)
  | ns (t : Nat)
  | call (r : Routine)
deriving DecidableEq

/-- One printed line of output.  Each constructor corresponds to one `printf`
in `benchmark.c`; numeric fields carry the exact values printed. -/
inductive Line where
  | usage (prog : String)
  | fileHeader (path : String) (w h : Nat)
  | runsReport (runs : Nat) (avgC avgRVV : ℚ)
  | errorLoad (path : String)
  | couldNotOpenDir (path : String)
  | neitherFileNorDir
  | cannotStat (path : String)
  | globalHeader (count : Nat)
  | summaryC (avg : ℚ)
  | summaryRVV (avg : ℚ)
  | noPngFiles
deriving DecidableEq

/-- `int block_size = (4 == 4)? 10: 6;` — the per-pixel-pair output block
size used by the capacity estimate (10 bytes, since channels are forced
to 4). -/
def block_size : Nat := if 4 = 4 then 10 else 6

/-- `int outbuf_size = (width>>1)*height* block_size;` — the byte capacity
allocated for each routine's output buffer.  `width >> 1` on a nonnegative
`int` is division by two rounding down. -/
def outbuf_size (width height : Nat) : Nat := width / 2 * height * block_size

/-- Modelled from the spec: the conversion routines (`qoy.h`) are not part of
the sources under verification; per the spec, their documented worst case is a
fixed expansion constant per pixel pair (`block_size` = 10 bytes for 4 output
channels), and a capacity is sufficient when it holds that worst case.  A row
of `width` pixels contains `⌈width/2⌉` pixel pairs (an odd trailing pixel
still occupies a pair), so the documented worst-case output size is
`⌈width/2⌉ * height * block_size`. -/
def qoy_worst_case_bytes (width height : Nat) : Nat :=
  (width + 1) / 2 * height * block_size

/-- The timed loop `for(i=0; i<runs; i++) { ... }` of `benchmark_image`.
Iteration `i` clears the C output buffer, reads the clock (`t0`), invokes the
baseline routine, reads the clock (`t1`) and accumulates `t1 - t0`; then does
the same for the RVV routine with `t2`, `t3`.  The clock values of iteration
`i` are `clk (4*i)`, …, `clk (4*i+3)`.  Returns the accumulated
`(sum_c, sum_rvv, events)`. -/
def benchLoop (clk : Nat → Nat) (osize : Nat) (runs : Nat) : Nat × Nat × List Ev :=
  (List.range runs).foldl
    (fun acc i =>
      let t0 := clk (4 * i)
      let t1 := clk (4 * i + 1)
      let t2 := clk (4 * i + 2)
      let t3 := clk (4 * i + 3)
      (acc.1 + (t1 - t0), acc.2.1 + (t3 - t2),
       acc.2.2 ++
         [Ev.memset .c osize, Ev.ns t0, Ev.call .c, Ev.ns t1,
          Ev.memset .rvv osize, Ev.ns t2, Ev.call .rvv, Ev.ns t3]))
    (0, 0, [])

/-- Result of one call to `benchmark_image` or `benchmark_directory`: the
updated global statistics, the lines printed, and the benchmarking events. -/
structure BIResult where
  stats : GlobalStats
  lines : List Line
  trace : List Ev
deriving DecidableEq

/-- `benchmark_image(path, runs)` from `benchmark.c`, acting on the global
statistics `st`.  On load failure it prints the diagnostic and returns;
otherwise it prints the file header, warm-ups both routines once (untimed),
runs the timed loop, prints the per-file averages (`sum / runs / 1.0e6`
milliseconds), and accumulates the per-file totals into the globals. -/
def benchmark_image (env : Env) (path : String) (runs : Nat) (st : GlobalStats) :
    BIResult :=
  match env.load path with
  | none => ⟨st, [Line.errorLoad path], []⟩
  | some img =>
    let osize := outbuf_size img.width img.height
    let warm : List Ev := [Ev.call .c, Ev.call .rvv]
    let r := benchLoop (env.clk path) osize runs
    let sum_c := r.1
    let sum_rvv := r.2.1
    let avg_c : ℚ := (sum_c : ℚ) / (runs : ℚ) / 1000000
    let avg_rvv : ℚ := (sum_rvv : ℚ) / (runs : ℚ) / 1000000
    ⟨⟨st.g_sum_c_time_ns + sum_c, st.g_sum_rvv_time_ns + sum_rvv,
      st.g_image_count + 1⟩,
     [Line.fileHeader path img.width img.height,
      Line.runsReport runs avg_c avg_rvv],
     warm ++ r.2.2⟩

/-- The extension test of `benchmark_directory`:
`len>4 && strcmp(ent->d_name + (len-4), ".png")==0`. -/
def pngSuffixCheck (name : String) : Bool :=
  decide (4 < name.data.length) &&
  decide (name.data.drop (name.data.length - 4) = ['.', 'p', 'n', 'g'])

/-- The `readdir` loop of `benchmark_directory`: skip `.` and `..`, build
`"<dirpath>/<name>"`, and call `benchmark_image` on each entry passing the
`.png` suffix test. -/
def processEntries (env : Env) (dirpath : String) (runs : Nat) :
    List String → GlobalStats → BIResult
  | [], st => ⟨st, [], []⟩
  | name :: rest, st =>
    if name = "." ∨ name = ".." then
      processEntries env dirpath runs rest st
    else
      let filepath := dirpath ++ "/" ++ name
      if pngSuffixCheck name then
        let r1 := benchmark_image env filepath runs st
        let r2 := processEntries env dirpath runs rest r1.stats
        ⟨r2.stats, r1.lines ++ r2.lines, r1.trace ++ r2.trace⟩
      else
        processEntries env dirpath runs rest st

/-- `benchmark_directory(dirpath, runs)`: open the directory (diagnostic and
no targets if that fails) and run the `readdir` loop. -/
def benchmark_directory (env : Env) (dirpath : String) (runs : Nat)
    (st : GlobalStats) : BIResult :=
  match env.readdir dirpath with
  | none => ⟨st, [Line.couldNotOpenDir dirpath], []⟩
  | some entries => processEntries env dirpath runs entries st

/-- `g_runs = atoi(argv[2])` — C `atoi`: skip leading whitespace, read an
optional sign, then a maximal digit run; no digits yields 0. -/
def digitsToNat : List Char → Nat → Nat
  | c :: cs, acc =>
    if '0' ≤ c ∧ c ≤ '9' then digitsToNat cs (acc * 10 + (c.toNat - '0'.toNat))
    else acc
  | [], acc => acc

/-- Whitespace characters accepted by `isspace` in the C locale. -/
def isSpaceC (c : Char) : Bool :=
  c = ' ' || c = '\t' || c = '\n' || c = '\x0b' || c = '\x0c' || c = '\r'

/-- C `atoi`. -/
def atoi (s : String) : Int :=
  match s.data.dropWhile isSpaceC with
  | '-' :: rest => -(digitsToNat rest 0 : Int)
  | '+' :: rest => (digitsToNat rest 0 : Int)
  | cs => (digitsToNat cs 0 : Int)

/-- `g_runs = atoi(argv[2]); if(g_runs <= 0) g_runs=1;` — the effective
repetition count. -/
def effRuns (s : String) : Nat :=
  let r := atoi s
  if r ≤ 0 then 1 else r.toNat

/-- Result of a whole run of `main`: printed lines, exit code, final global
statistics, and the concatenated benchmarking trace. -/
structure MainResult where
  lines : List Line
  exitCode : Int
  stats : GlobalStats
  trace : List Ev
deriving DecidableEq

/-- `main(argc, argv)` of `benchmark.c`.  With fewer than three arguments it
prints the usage line and returns 0.  Otherwise it coerces the run count,
classifies the input path via `stat`, benchmarks a directory or a single
file (or prints a diagnostic), and finally prints either the global averages
(`g_sum / (g_image_count * g_runs) / 1.0e6` milliseconds) or the
`No PNG files were processed.` message.  It returns 0 in every case. -/
def mainRun (env : Env) (argv : List String) : MainResult :=
  match argv with
  | _ :: input_path :: runsArg :: _ =>
    let g_runs := effRuns runsArg
    let body : BIResult :=
      match env.statKind input_path with
      | .dir => benchmark_directory env input_path g_runs initStats
      | .reg => benchmark_image env input_path g_runs initStats
      | .other => ⟨initStats, [Line.neitherFileNorDir], []⟩
      | .noStat => ⟨initStats, [Line.cannotStat input_path], []⟩
    let summary : List Line :=
      if 0 < body.stats.g_image_count then
        let denom : Nat := body.stats.g_image_count * g_runs
        let avg_c : ℚ := (body.stats.g_sum_c_time_ns : ℚ) / (denom : ℚ) / 1000000
        let avg_rvv : ℚ := (body.stats.g_sum_rvv_time_ns : ℚ) / (denom : ℚ) / 1000000
        [Line.globalHeader body.stats.g_image_count,
         Line.summaryC avg_c, Line.summaryRVV avg_rvv]
      else
        [Line.noPngFiles]
    ⟨body.lines ++ summary, 0, body.stats, body.trace⟩
  | _ => ⟨[Line.usage (argv.headD "")], 0, initStats, []⟩

/-- The capacity allocated for the image that `env` loads at `path`
(0 when the load fails; the value is only used for loaded images). -/
def osizeOf (env : Env) (path : String) : Nat :=
  match env.load path with
  | none => 0
  | some img => outbuf_size img.width img.height

/-- The per-file total elapsed nanoseconds of the baseline routine over all
`runs` timed calls on `path` (the value `sum_c` of `benchmark_image`). -/
def imgSumC (env : Env) (path : String) (runs : Nat) : Nat :=
  (benchLoop (env.clk path) (osizeOf env path) runs).1

/-- The per-file total elapsed nanoseconds of the accelerated routine over
all `runs` timed calls on `path` (the value `sum_rvv`). -/
def imgSumRVV (env : Env) (path : String) (runs : Nat) : Nat :=
  (benchLoop (env.clk path) (osizeOf env path) runs).2.1

/-- The events of the `i`-th iteration of the timed loop. -/
def iterEvents (clk : Nat → Nat) (osize i : Nat) : List Ev :=
  [Ev.memset .c osize, Ev.ns (clk (4 * i)), Ev.call .c, Ev.ns (clk (4 * i + 1)),
   Ev.memset .rvv osize, Ev.ns (clk (4 * i + 2)), Ev.call .rvv,
   Ev.ns (clk (4 * i + 3))]

/-- Number of invocations of routine `r` in a trace (timed or not). -/
def callCount (r : Routine) : List Ev → Nat
  | [] => 0
  | Ev.call q :: es => (if q = r then 1 else 0) + callCount r es
  | _ :: es => callCount r es

/-- Number of `memset` clears of routine `r`'s output buffer in a trace. -/
def memsetCount (r : Routine) : List Ev → Nat
  | [] => 0
  | Ev.memset q _ :: es => (if q = r then 1 else 0) + memsetCount r es
  | _ :: es => memsetCount r es

/-- Whether a scan of the trace ends inside a timed region, starting from
state `b`: clock reads alternately open and close timed regions. -/
def nsParity : List Ev → Bool → Bool
  | [], b => b
  | Ev.ns _ :: es, b => nsParity es (!b)
  | _ :: es, b => nsParity es b

/-- Number of invocations of routine `r` lying inside a timed region (between
an opening and a closing clock read), scanning from state `b`. -/
def timedCallCount (r : Routine) : List Ev → Bool → Nat
  | [], _ => 0
  | Ev.ns _ :: es, b => timedCallCount r es (!b)
  | Ev.call q :: es, true => (if q = r then 1 else 0) + timedCallCount r es true
  | Ev.call _ :: es, false => timedCallCount r es false
  | Ev.memset _ _ :: es, b => timedCallCount r es b

/-- Number of `memset` clears lying inside a timed region, scanning from
state `b`. -/
def memsetTimedCount : List Ev → Bool → Nat
  | [], _ => 0
  | Ev.ns _ :: es, b => memsetTimedCount es (!b)
  | Ev.memset _ _ :: es, true => 1 + memsetTimedCount es true
  | Ev.memset _ _ :: es, false => memsetTimedCount es false
  | Ev.call _ :: es, b => memsetTimedCount es b

/-- The spec's qualification predicate for a directory entry, stated in the
spec's own words: the name is not `.` or `..` and ends with the
case-sensitive suffix `.png`. -/
def specPngEntry (name : String) : Bool :=
  decide (¬ name = ".") && decide (¬ name = "..") &&
  decide (4 ≤ name.data.length) &&
  decide (name.data.drop (name.data.length - 4) = ['.', 'p', 'n', 'g'])

/-- The list of target paths a run of `main` derives from `input_path`:
the path itself for a regular file, the qualifying entries of a directory,
nothing otherwise. -/
def targetsOf (env : Env) (path : String) : List String :=
  match env.statKind path with
  | .dir =>
    match env.readdir path with
    | none => []
    | some entries =>
      (entries.filter (fun n => pngSuffixCheck n)).map (fun n => path ++ "/" ++ n)
  | .reg => [path]
  | .other => []
  | .noStat => []

/-- The targets of a run that load successfully. -/
def okTargets (env : Env) (path : String) : List String :=
  (targetsOf env path).filter (fun q => (env.load q).isSome)

/-- Unfolding one iteration of the timed loop. -/
theorem benchLoop_succ (clk : Nat → Nat) (osize n : Nat) :
    benchLoop clk osize (n + 1) =
      ((benchLoop clk osize n).1 + (clk (4 * n + 1) - clk (4 * n)),
       (benchLoop clk osize n).2.1 + (clk (4 * n + 3) - clk (4 * n + 2)),
       (benchLoop clk osize n).2.2 ++ iterEvents clk osize n) := by
  simp [benchLoop, List.range_succ, iterEvents]

/-- `sum_c` is the sum of the `runs` baseline deltas — one per timed call,
none for the warm-up. -/
theorem benchLoop_sum_c (clk : Nat → Nat) (osize : Nat) :
    ∀ n, (benchLoop clk osize n).1 =
      ((List.range n).map (fun i => clk (4 * i + 1) - clk (4 * i))).sum := by
  intro n
  induction n with
  | zero => simp [benchLoop]
  | succ n ih => simp [benchLoop_succ, ih, List.range_succ]

/-- `sum_rvv` is the sum of the `runs` accelerated deltas. -/
theorem benchLoop_sum_rvv (clk : Nat → Nat) (osize : Nat) :
    ∀ n, (benchLoop clk osize n).2.1 =
      ((List.range n).map (fun i => clk (4 * i + 3) - clk (4 * i + 2))).sum := by
  intro n
  induction n with
  | zero => simp [benchLoop]
  | succ n ih => simp [benchLoop_succ, ih, List.range_succ]

/-- The events of the timed loop are the iteration blocks in order. -/
theorem benchLoop_trace (clk : Nat → Nat) (osize : Nat) :
    ∀ n, (benchLoop clk osize n).2.2 =
      (List.range n).flatMap (iterEvents clk osize) := by
  intro n
  induction n with
  | zero => simp [benchLoop]
  | succ n ih => simp [benchLoop_succ, ih, List.range_succ]

theorem callCount_append (r : Routine) (t1 t2 : List Ev) :
    callCount r (t1 ++ t2) = callCount r t1 + callCount r t2 := by
  induction t1 with
  | nil => simp [callCount]
  | cons e es ih => cases e <;> simp [callCount, ih] <;> omega

theorem memsetCount_append (r : Routine) (t1 t2 : List Ev) :
    memsetCount r (t1 ++ t2) = memsetCount r t1 + memsetCount r t2 := by
  induction t1 with
  | nil => simp [memsetCount]
  | cons e es ih => cases e <;> simp [memsetCount, ih] <;> omega

theorem nsParity_append (t1 t2 : List Ev) (b : Bool) :
    nsParity (t1 ++ t2) b = nsParity t2 (nsParity t1 b) := by
  induction t1 generalizing b with
  | nil => simp [nsParity]
  | cons e es ih => cases e <;> simp [nsParity, ih]

theorem timedCallCount_append (r : Routine) (t1 t2 : List Ev) (b : Bool) :
    timedCallCount r (t1 ++ t2) b =
      timedCallCount r t1 b + timedCallCount r t2 (nsParity t1 b) := by
  induction t1 generalizing b with
  | nil => simp [timedCallCount, nsParity]
  | cons e es ih =>
    cases e <;> cases b <;> simp [timedCallCount, nsParity, ih] <;> omega

theorem memsetTimedCount_append (t1 t2 : List Ev) (b : Bool) :
    memsetTimedCount (t1 ++ t2) b =
      memsetTimedCount t1 b + memsetTimedCount t2 (nsParity t1 b) := by
  induction t1 generalizing b with
  | nil => simp [memsetTimedCount, nsParity]
  | cons e es ih =>
    cases e <;> cases b <;> simp [memsetTimedCount, nsParity, ih] <;> omega

/-- An iteration block leaves the timed/untimed scan state unchanged (it
contains four clock reads). -/
theorem nsParity_iterEvents (clk : Nat → Nat) (osize i : Nat) (b : Bool) :
    nsParity (iterEvents clk osize i) b = b := by
  simp [iterEvents, nsParity]

/-- Each iteration block contains exactly one timed call of each routine. -/
theorem timedCallCount_iterEvents (r : Routine) (clk : Nat → Nat)
    (osize i : Nat) : timedCallCount r (iterEvents clk osize i) false = 1 := by
  cases r <;> simp [iterEvents, timedCallCount]

/-- No `memset` of an iteration block lies inside a timed region. -/
theorem memsetTimedCount_iterEvents (clk : Nat → Nat) (osize i : Nat) :
    memsetTimedCount (iterEvents clk osize i) false = 0 := by
  simp [iterEvents, memsetTimedCount]

/-- Each iteration block invokes each routine exactly once. -/
theorem callCount_iterEvents (r : Routine) (clk : Nat → Nat) (osize i : Nat) :
    callCount r (iterEvents clk osize i) = 1 := by
  cases r <;> simp [iterEvents, callCount]

/-- Each iteration block clears each routine's buffer exactly once. -/
theorem memsetCount_iterEvents (r : Routine) (clk : Nat → Nat) (osize i : Nat) :
    memsetCount r (iterEvents clk osize i) = 1 := by
  cases r <;> simp [iterEvents, memsetCount]

theorem nsParity_flat (clk : Nat → Nat) (osize : Nat) (l : List Nat) (b : Bool) :
    nsParity (l.flatMap (iterEvents clk osize)) b = b := by
  induction l generalizing b with
  | nil => simp [nsParity]
  | cons i is ih => simp [nsParity_append, nsParity_iterEvents, ih]

theorem timedCallCount_flat (r : Routine) (clk : Nat → Nat) (osize : Nat)
    (l : List Nat) : timedCallCount r (l.flatMap (iterEvents clk osize)) false =
      l.length := by
  induction l with
  | nil => simp [timedCallCount]
  | cons i is ih =>
    simp [timedCallCount_append, nsParity_iterEvents, timedCallCount_iterEvents,
      ih]
    omega

theorem memsetTimedCount_flat (clk : Nat → Nat) (osize : Nat) (l : List Nat) :
    memsetTimedCount (l.flatMap (iterEvents clk osize)) false = 0 := by
  induction l with
  | nil => simp [memsetTimedCount]
  | cons i is ih =>
    simp [memsetTimedCount_append, nsParity_iterEvents,
      memsetTimedCount_iterEvents, ih]

theorem callCount_flat (r : Routine) (clk : Nat → Nat) (osize : Nat)
    (l : List Nat) : callCount r (l.flatMap (iterEvents clk osize)) = l.length := by
  induction l with
  | nil => simp [callCount]
  | cons i is ih =>
    simp [callCount_append, callCount_iterEvents, ih]
    omega

theorem memsetCount_flat (r : Routine) (clk : Nat → Nat) (osize : Nat)
    (l : List Nat) : memsetCount r (l.flatMap (iterEvents clk osize)) = l.length := by
  induction l with
  | nil => simp [memsetCount]
  | cons i is ih =>
    simp [memsetCount_append, memsetCount_iterEvents, ih]
    omega

/-- An entry that contributes to the global statistics: it passes the
`.png` suffix test and its image loads successfully. -/
def entryOk (env : Env) (dirpath name : String) : Bool :=
  pngSuffixCheck name && (env.load (dirpath ++ "/" ++ name)).isSome

/-- A name passing the suffix test is neither `.` nor `..`. -/
theorem pngSuffixCheck_not_dot {name : String}
    (h : pngSuffixCheck name = true) : ¬(name = "." ∨ name = "..") := by
  rintro (rfl | rfl)
  · exact absurd h (by decide)
  · exact absurd h (by decide)

/-- `benchmark_image` on a failing load: one diagnostic line, globals
untouched, no benchmarking events. -/
theorem benchmark_image_none (env : Env) (path : String) (runs : Nat)
    (st : GlobalStats) (h : env.load path = none) :
    benchmark_image env path runs st = ⟨st, [Line.errorLoad path], []⟩ := by
  simp [benchmark_image, h]

/-- `benchmark_image` on a successful load: the file header and per-file
report are printed, the per-file totals are accumulated, and the trace is the
two warm-up calls followed by the timed-loop events. -/
theorem benchmark_image_some (env : Env) (path : String) (runs : Nat)
    (st : GlobalStats) (img : Image) (h : env.load path = some img) :
    benchmark_image env path runs st =
      ⟨⟨st.g_sum_c_time_ns + imgSumC env path runs,
        st.g_sum_rvv_time_ns + imgSumRVV env path runs,
        st.g_image_count + 1⟩,
       [Line.fileHeader path img.width img.height,
        Line.runsReport runs
          ((imgSumC env path runs : ℚ) / (runs : ℚ) / 1000000)
          ((imgSumRVV env path runs : ℚ) / (runs : ℚ) / 1000000)],
       [Ev.call .c, Ev.call .rvv] ++
         (benchLoop (env.clk path) (osizeOf env path) runs).2.2⟩ := by
  simp [benchmark_image, h, imgSumC, imgSumRVV, osizeOf]

/-- The `readdir` loop over a concatenation is the loop over the first part
followed by the loop over the second, stats threaded through and output
concatenated. -/
theorem processEntries_append (env : Env) (dirpath : String) (runs : Nat)
    (a b : List String) (st : GlobalStats) :
    processEntries env dirpath runs (a ++ b) st =
      ⟨(processEntries env dirpath runs b
          (processEntries env dirpath runs a st).stats).stats,
       (processEntries env dirpath runs a st).lines ++
         (processEntries env dirpath runs b
           (processEntries env dirpath runs a st).stats).lines,
       (processEntries env dirpath runs a st).trace ++
         (processEntries env dirpath runs b
           (processEntries env dirpath runs a st).stats).trace⟩ := by
  induction a generalizing st with
  | nil => simp [processEntries]
  | cons name rest ih =>
    by_cases hskip : name = "." ∨ name = ".."
    · simp [processEntries, hskip, ih]
    · by_cases hpng : pngSuffixCheck name
      · simp [processEntries, hskip, hpng, ih]
      · simp [processEntries, hskip, hpng, ih]

/-- The statistics after the `readdir` loop: each qualifying, successfully
loading entry adds its per-file totals and bumps the image count by one;
every other entry leaves the globals unchanged. -/
theorem processEntries_stats (env : Env) (dirpath : String) (runs : Nat) :
    ∀ (entries : List String) (st : GlobalStats),
    (processEntries env dirpath runs entries st).stats =
      ⟨st.g_sum_c_time_ns +
         ((entries.filter (entryOk env dirpath)).map
            (fun n => imgSumC env (dirpath ++ "/" ++ n) runs)).sum,
       st.g_sum_rvv_time_ns +
         ((entries.filter (entryOk env dirpath)).map
            (fun n => imgSumRVV env (dirpath ++ "/" ++ n) runs)).sum,
       st.g_image_count + (entries.filter (entryOk env dirpath)).length⟩ := by
  intro entries
  induction entries with
  | nil => intro st; simp [processEntries]
  | cons name rest ih =>
    intro st
    by_cases hskip : name = "." ∨ name = ".."
    · have hok : entryOk env dirpath name = false := by
        rcases hskip with rfl | rfl
        · have hp : pngSuffixCheck "." = false := by decide
          simp [entryOk, hp]
        · have hp : pngSuffixCheck ".." = false := by decide
          simp [entryOk, hp]
      simp [processEntries, hskip, ih, List.filter_cons, hok]
    · by_cases hpng : pngSuffixCheck name
      · cases hload : env.load (dirpath ++ "/" ++ name) with
        | none =>
          have hok : entryOk env dirpath name = false := by
            simp [entryOk, hload]
          simp [processEntries, hskip, hpng,
            benchmark_image_none env _ runs st hload, ih,
            List.filter_cons, hok]
        | some img =>
          have hok : entryOk env dirpath name = true := by
            simp [entryOk, hpng, hload]
          simp [processEntries, hskip, hpng,
            benchmark_image_some env _ runs st img hload, ih,
            List.filter_cons, hok]
          omega
      · have hok : entryOk env dirpath name = false := by
          simp [entryOk, hpng]
        simp [processEntries, hskip, hpng, ih, List.filter_cons, hok]

/-- For a directory input, the successfully loading targets are exactly the
contributing entries, each prefixed with `"<dirpath>/"`. -/
theorem okTargets_dir (env : Env) (path : String) (entries : List String)
    (hstat : env.statKind path = .dir)
    (hrd : env.readdir path = some entries) :
    okTargets env path =
      (entries.filter (entryOk env path)).map (fun n => path ++ "/" ++ n) := by
  unfold okTargets targetsOf
  rw [hstat, hrd]
  rw [List.filter_map]
  rw [List.filter_filter]
  apply congrArg
  apply List.filter_congr
  intro n _
  simp [entryOk, Function.comp, Bool.and_comm]

/-- A successful benchmarking pass ends outside any timed region. -/
theorem image_trace_parity (env : Env) (path : String) (runs : Nat)
    (st : GlobalStats) :
    nsParity (benchmark_image env path runs st).trace false = false := by
  cases h : env.load path with
  | none => rw [benchmark_image_none env path runs st h]; rfl
  | some img =>
    rw [benchmark_image_some env path runs st img h]
    rw [nsParity_append, benchLoop_trace]
    simp [nsParity, nsParity_flat]

/-- A benchmarking pass performs exactly `runs` timed calls of each routine
when the image loads, and none when it does not. -/
theorem image_timedCallCount (r : Routine) (env : Env) (path : String)
    (runs : Nat) (st : GlobalStats) :
    timedCallCount r (benchmark_image env path runs st).trace false =
      if (env.load path).isSome then runs else 0 := by
  cases h : env.load path with
  | none => rw [benchmark_image_none env path runs st h]; rfl
  | some img =>
    rw [benchmark_image_some env path runs st img h]
    rw [timedCallCount_append, benchLoop_trace]
    simp [timedCallCount, nsParity, timedCallCount_flat]

theorem processEntries_trace_parity (env : Env) (dirpath : String)
    (runs : Nat) : ∀ (entries : List String) (st : GlobalStats),
    nsParity (processEntries env dirpath runs entries st).trace false = false := by
  intro entries
  induction entries with
  | nil => intro st; rfl
  | cons name rest ih =>
    intro st
    by_cases hskip : name = "." ∨ name = ".."
    · simp [processEntries, hskip, ih]
    · by_cases hpng : pngSuffixCheck name
      · simp [processEntries, hskip, hpng, nsParity_append,
          image_trace_parity, ih]
      · simp [processEntries, hskip, hpng, ih]

/-- The `readdir` loop performs exactly `runs` timed calls of each routine
per contributing entry. -/
theorem processEntries_timedCallCount (r : Routine) (env : Env)
    (dirpath : String) (runs : Nat) : ∀ (entries : List String) (st : GlobalStats),
    timedCallCount r (processEntries env dirpath runs entries st).trace false =
      (entries.filter (entryOk env dirpath)).length * runs := by
  intro entries
  induction entries with
  | nil => intro st; simp [processEntries, timedCallCount]
  | cons name rest ih =>
    intro st
    by_cases hskip : name = "." ∨ name = ".."
    · have hok : entryOk env dirpath name = false := by
        rcases hskip with rfl | rfl
        · have hp : pngSuffixCheck "." = false := by decide
          simp [entryOk, hp]
        · have hp : pngSuffixCheck ".." = false := by decide
          simp [entryOk, hp]
      simp [processEntries, hskip, ih, List.filter_cons, hok]
    · by_cases hpng : pngSuffixCheck name
      · rw [show ((name :: rest).filter (entryOk env dirpath)) =
            if entryOk env dirpath name then
              name :: rest.filter (entryOk env dirpath)
            else rest.filter (entryOk env dirpath) from List.filter_cons ..]
        cases hload : env.load (dirpath ++ "/" ++ name) with
        | none =>
          have hok : entryOk env dirpath name = false := by
            simp [entryOk, hload]
          simp [processEntries, hskip, hpng, timedCallCount_append,
            image_timedCallCount, image_trace_parity, hload, ih, hok]
        | some img =>
          have hok : entryOk env dirpath name = true := by
            simp [entryOk, hpng, hload]
          simp [processEntries, hskip, hpng, timedCallCount_append,
            image_timedCallCount, image_trace_parity, hload, ih, hok]
          ring
      · have hok : entryOk env dirpath name = false := by
          simp [entryOk, hpng]
        simp [processEntries, hskip, hpng, ih, List.filter_cons, hok]

/-- Lines of the global summary, as opposed to per-target output. -/
def isSummaryLine : Line → Bool
  | .globalHeader _ => true
  | .summaryC _ => true
  | .summaryRVV _ => true
  | _ => false

/-- `benchmark_image` never prints a global-summary line. -/
theorem benchmark_image_no_summary (env : Env) (path : String) (runs : Nat)
    (st : GlobalStats) :
    ∀ l ∈ (benchmark_image env path runs st).lines, isSummaryLine l = false := by
  intro l hl
  cases h : env.load path with
  | none =>
    rw [benchmark_image_none env path runs st h] at hl
    simp at hl
    subst hl
    rfl
  | some img =>
    rw [benchmark_image_some env path runs st img h] at hl
    simp at hl
    rcases hl with rfl | rfl <;> rfl

/-- The `readdir` loop never prints a global-summary line. -/
theorem processEntries_no_summary (env : Env) (dirpath : String) (runs : Nat) :
    ∀ (entries : List String) (st : GlobalStats),
    ∀ l ∈ (processEntries env dirpath runs entries st).lines,
      isSummaryLine l = false := by
  intro entries
  induction entries with
  | nil => intro st l hl; simp [processEntries] at hl
  | cons name rest ih =>
    intro st l hl
    by_cases hskip : name = "." ∨ name = ".."
    · rw [show processEntries env dirpath runs (name :: rest) st =
          processEntries env dirpath runs rest st by
            simp [processEntries, hskip]] at hl
      exact ih st l hl
    · by_cases hpng : pngSuffixCheck name
      · simp only [processEntries, if_neg hskip, if_pos hpng,
          List.mem_append] at hl
        rcases hl with hl | hl
        · exact benchmark_image_no_summary env _ runs st l hl
        · exact ih _ l hl
      · rw [show processEntries env dirpath runs (name :: rest) st =
            processEntries env dirpath runs rest st by
              simp [processEntries, hskip, hpng]] at hl
        exact ih st l hl

/-- The final global statistics of a full run: one count and one pair of
per-file totals per successfully loading target. -/
theorem mainRun_stats (env : Env) (a0 path rstr : String) (rest : List String) :
    (mainRun env (a0 :: path :: rstr :: rest)).stats =
      ⟨((okTargets env path).map (fun q => imgSumC env q (effRuns rstr))).sum,
       ((okTargets env path).map (fun q => imgSumRVV env q (effRuns rstr))).sum,
       (okTargets env path).length⟩ := by
  cases hstat : env.statKind path with
  | dir =>
    cases hrd : env.readdir path with
    | none =>
      simp [mainRun, hstat, benchmark_directory, hrd, okTargets, targetsOf,
        initStats]
    | some entries =>
      simp only [mainRun, hstat, benchmark_directory, hrd]
      rw [processEntries_stats]
      rw [okTargets_dir env path entries hstat hrd]
      simp [initStats, List.map_map, List.length_map, Function.comp_def]
  | reg =>
    cases hload : env.load path with
    | none =>
      simp only [mainRun, hstat]
      rw [benchmark_image_none env path (effRuns rstr) initStats hload]
      simp [okTargets, targetsOf, hstat, hload, initStats]
    | some img =>
      simp only [mainRun, hstat]
      rw [benchmark_image_some env path (effRuns rstr) initStats img hload]
      simp [okTargets, targetsOf, hstat, hload, initStats]
  | other =>
    simp [mainRun, hstat, okTargets, targetsOf, initStats]
  | noStat =>
    simp [mainRun, hstat, okTargets, targetsOf, initStats]

/-- A full run performs exactly `image_count * run_count` timed calls of each
routine. -/
theorem mainRun_timedCallCount (r : Routine) (env : Env) (a0 path rstr : String)
    (rest : List String) :
    timedCallCount r (mainRun env (a0 :: path :: rstr :: rest)).trace false =
      (okTargets env path).length * effRuns rstr := by
  cases hstat : env.statKind path with
  | dir =>
    cases hrd : env.readdir path with
    | none =>
      simp [mainRun, hstat, benchmark_directory, hrd, okTargets, targetsOf,
        timedCallCount]
    | some entries =>
      simp only [mainRun, hstat, benchmark_directory, hrd]
      rw [processEntries_timedCallCount]
      rw [okTargets_dir env path entries hstat hrd]
      simp
  | reg =>
    cases hload : env.load path with
    | none =>
      simp [mainRun, hstat, benchmark_image_none env path _ initStats hload,
        okTargets, targetsOf, hload, timedCallCount]
    | some img =>
      have h := image_timedCallCount r env path (effRuns rstr) initStats
      rw [hload] at h
      simp [mainRun, hstat, okTargets, targetsOf, hload, h]
  | other =>
    simp [mainRun, hstat, okTargets, targetsOf, timedCallCount]
  | noStat =>
    simp [mainRun, hstat, okTargets, targetsOf, timedCallCount]

/-- C5: the `run_count` argument is parsed as an integer and any value `≤ 0`
or unparsable is coerced to 1; invoking with `"0"`, `"-5"` or a non-numeric
token behaves identically to invoking with `"1"`. -/
theorem C5_run_count_coercion :
    (∀ s : String, atoi s ≤ 0 → effRuns s = 1) ∧
    (∀ (env : Env) (a0 path : String) (rest : List String),
      mainRun env (a0 :: path :: "0" :: rest) =
        mainRun env (a0 :: path :: "1" :: rest)) ∧
    (∀ (env : Env) (a0 path : String) (rest : List String),
      mainRun env (a0 :: path :: "-5" :: rest) =
        mainRun env (a0 :: path :: "1" :: rest)) ∧
    (∀ (env : Env) (a0 path : String) (rest : List String),
      mainRun env (a0 :: path :: "abc" :: rest) =
        mainRun env (a0 :: path :: "1" :: rest)) := by
  refine ⟨fun s h => by simp [effRuns, h], ?_, ?_, ?_⟩
  · intro env a0 path rest
    have h0 : effRuns "0" = 1 := by decide
    have h1 : effRuns "1" = 1 := by decide
    simp only [mainRun, h0, h1]
  · intro env a0 path rest
    have h0 : effRuns "-5" = 1 := by decide
    have h1 : effRuns "1" = 1 := by decide
    simp only [mainRun, h0, h1]
  · intro env a0 path rest
    have h0 : effRuns "abc" = 1 := by decide
    have h1 : effRuns "1" = 1 := by decide
    simp only [mainRun, h0, h1]

/-- Witness for C5 at the concrete token `"-7"`. -/
theorem C5_run_count_coercion_witness :
    atoi "-7" ≤ 0 ∧ effRuns "-7" = 1 :=
  ⟨by decide, C5_run_count_coercion.1 "-7" (by decide)⟩

/-- C7: the allocated output capacity `(width>>1)*height*block_size` drops
the odd trailing pixel pair; at width 1, height 1 it allocates 0 bytes while
the routines' documented worst case (modelled from the spec) is 10 bytes —
the estimate is smaller than what the routines may write. -/
theorem C7_capacity_underflow :
    outbuf_size 1 1 = 0 ∧ 0 < qoy_worst_case_bytes 1 1 ∧
      outbuf_size 1 1 < qoy_worst_case_bytes 1 1 := by decide

/-- C9: the process always exits with status 0, and with fewer than two
arguments it prints only the usage line (still exiting 0). -/
theorem C9_exit_status :
    (∀ (env : Env) (argv : List String), (mainRun env argv).exitCode = 0) ∧
    (∀ (env : Env) (argv : List String), argv.length < 3 →
      (mainRun env argv).lines = [Line.usage (argv.headD "")]) := by
  constructor
  · intro env argv
    match argv with
    | [] => rfl
    | [a] => rfl
    | [a, b] => rfl
    | a :: b :: c :: t => simp [mainRun]
  · intro env argv h
    match argv with
    | [] => rfl
    | [a] => rfl
    | [a, b] => rfl
    | a :: b :: c :: t =>
      exfalso
      simp [List.length_cons] at h
      omega

/-- An environment in which every path fails to `stat` (used to instantiate
theorems at concrete inputs). -/
def envNoStat : Env :=
  ⟨fun _ => StatKind.noStat, fun _ => none, fun _ => none, fun _ _ => 0⟩

/-- Witness for C9 at a one-argument invocation. -/
theorem C9_exit_status_witness :
    (mainRun envNoStat ["bench"]).exitCode = 0 ∧
    (["bench"] : List String).length < 3 ∧
    (mainRun envNoStat ["bench"]).lines = [Line.usage (["bench"].headD "")] :=
  ⟨C9_exit_status.1 envNoStat ["bench"], by decide,
   C9_exit_status.2 envNoStat ["bench"] (by decide)⟩

/-- C1 (amended): after a directory scan starting from the initial globals,
`g_image_count` equals the number of immediate entries whose name is longer
than four characters, ends with the case-sensitive suffix `.png`, and whose
image loads successfully (`.` and `..` can never qualify). -/
theorem C1_image_count (env : Env) (dirpath : String) (runs : Nat)
    (entries : List String) (hrd : env.readdir dirpath = some entries) :
    (benchmark_directory env dirpath runs initStats).stats.g_image_count =
      (entries.filter (entryOk env dirpath)).length := by
  simp [benchmark_directory, hrd, processEntries_stats, initStats]

/-- A directory `d` with entries `a.png` (loads fine), `.png` (name not
longer than 4 characters) and `b.png` (fails to decode). -/
def envC1 : Env :=
  ⟨fun _ => StatKind.dir,
   fun p => if p = "d" then some ["a.png", ".png", "b.png"] else none,
   fun p => if p = "d/a.png" then some ⟨2, 2⟩ else none,
   fun _ _ => 0⟩

/-- Counterexample to C1 as stated: three entries of directory `d` end with
`.png` (`a.png`, `.png`, `b.png`), yet the scan leaves `g_image_count = 1` —
the failing `b.png` is not counted and neither is the 4-character name
`.png`. -/
theorem C1_counterexample :
    ¬ ((benchmark_directory envC1 "d" 1 initStats).stats.g_image_count =
       (((["a.png", ".png", "b.png"] : List String)).filter specPngEntry).length) := by
  decide

/-- Witness for the amended C1 on the same concrete directory. -/
theorem C1_image_count_witness :
    envC1.readdir "d" = some ["a.png", ".png", "b.png"] ∧
    (benchmark_directory envC1 "d" 1 initStats).stats.g_image_count =
      ((["a.png", ".png", "b.png"] : List String).filter (entryOk envC1 "d")).length :=
  ⟨by decide, C1_image_count envC1 "d" 1 ["a.png", ".png", "b.png"] (by decide)⟩

/-- C10: the global accumulators start at zero; a failed load leaves them
unchanged; a successful pass adds exactly that image's `run_count`-iteration
totals and increments the count by one; and over a whole run each routine is
timed exactly `g_image_count * g_runs` times. -/
theorem C10_accumulator_invariant :
    (initStats.g_sum_c_time_ns = 0 ∧ initStats.g_sum_rvv_time_ns = 0 ∧
      initStats.g_image_count = 0) ∧
    (∀ (env : Env) (path : String) (runs : Nat) (st : GlobalStats),
      env.load path = none → (benchmark_image env path runs st).stats = st) ∧
    (∀ (env : Env) (path : String) (runs : Nat) (st : GlobalStats) (img : Image),
      env.load path = some img →
      (benchmark_image env path runs st).stats =
        ⟨st.g_sum_c_time_ns + imgSumC env path runs,
         st.g_sum_rvv_time_ns + imgSumRVV env path runs,
         st.g_image_count + 1⟩) ∧
    (∀ (env : Env) (a0 path rstr : String) (rest : List String),
      timedCallCount .c (mainRun env (a0 :: path :: rstr :: rest)).trace false =
        (mainRun env (a0 :: path :: rstr :: rest)).stats.g_image_count *
          effRuns rstr ∧
      timedCallCount .rvv (mainRun env (a0 :: path :: rstr :: rest)).trace false =
        (mainRun env (a0 :: path :: rstr :: rest)).stats.g_image_count *
          effRuns rstr) := by
  refine ⟨⟨rfl, rfl, rfl⟩, ?_, ?_, ?_⟩
  · intro env path runs st h
    rw [benchmark_image_none env path runs st h]
  · intro env path runs st img h
    rw [benchmark_image_some env path runs st img h]
  · intro env a0 path rstr rest
    rw [mainRun_stats env a0 path rstr rest]
    exact ⟨mainRun_timedCallCount .c env a0 path rstr rest,
           mainRun_timedCallCount .rvv env a0 path rstr rest⟩

/-- Witness for C10: a failing load at a concrete environment leaves the
concrete globals untouched, and a successful one accumulates them. -/
theorem C10_accumulator_invariant_witness :
    envC1.load "d/b.png" = none ∧
    (benchmark_image envC1 "d/b.png" 1 ⟨7, 8, 9⟩).stats = ⟨7, 8, 9⟩ ∧
    envC1.load "d/a.png" = some ⟨2, 2⟩ ∧
    (benchmark_image envC1 "d/a.png" 1 ⟨7, 8, 9⟩).stats =
      ⟨7 + imgSumC envC1 "d/a.png" 1, 8 + imgSumRVV envC1 "d/a.png" 1, 9 + 1⟩ :=
  ⟨by decide,
   C10_accumulator_invariant.2.1 envC1 "d/b.png" 1 ⟨7, 8, 9⟩ (by decide),
   by decide,
   C10_accumulator_invariant.2.2.1 envC1 "d/a.png" 1 ⟨7, 8, 9⟩ ⟨2, 2⟩ (by decide)⟩

/-- C2: for a successfully loaded image and `run_count ≥ 1`, each routine is
invoked exactly `run_count + 1` times — the two untimed warm-up calls come
first, then `run_count` iterations each timing the baseline then the
accelerated routine; every timed region contains just the one routine call
(each buffer clear lies outside it, one clear per timed call), and each
accumulated sum is the sum of exactly the `run_count` timed deltas, so the
warm-up is never counted — also when `run_count = 1`. -/
theorem C2_protocol (env : Env) (path : String) (runs : Nat) (st : GlobalStats)
    (img : Image) (hruns : 1 ≤ runs) (hload : env.load path = some img) :
    callCount .c (benchmark_image env path runs st).trace = runs + 1 ∧
    callCount .rvv (benchmark_image env path runs st).trace = runs + 1 ∧
    timedCallCount .c (benchmark_image env path runs st).trace false = runs ∧
    timedCallCount .rvv (benchmark_image env path runs st).trace false = runs ∧
    memsetTimedCount (benchmark_image env path runs st).trace false = 0 ∧
    memsetCount .c (benchmark_image env path runs st).trace = runs ∧
    memsetCount .rvv (benchmark_image env path runs st).trace = runs ∧
    (benchmark_image env path runs st).trace.take 2 =
      [Ev.call .c, Ev.call .rvv] ∧
    (benchmark_image env path runs st).trace.drop 2 =
      (List.range runs).flatMap
        (iterEvents (env.clk path) (outbuf_size img.width img.height)) ∧
    (benchmark_image env path runs st).stats.g_sum_c_time_ns =
      st.g_sum_c_time_ns +
        ((List.range runs).map
          (fun i => env.clk path (4 * i + 1) - env.clk path (4 * i))).sum ∧
    (benchmark_image env path runs st).stats.g_sum_rvv_time_ns =
      st.g_sum_rvv_time_ns +
        ((List.range runs).map
          (fun i => env.clk path (4 * i + 3) - env.clk path (4 * i + 2))).sum := by
  rw [benchmark_image_some env path runs st img hload]
  have hos : osizeOf env path = outbuf_size img.width img.height := by
    simp [osizeOf, hload]
  refine ⟨?_, ?_, ?_, ?_, ?_, ?_, ?_, ?_, ?_, ?_, ?_⟩
  · rw [callCount_append, benchLoop_trace, callCount_flat]
    simp [callCount]
    omega
  · rw [callCount_append, benchLoop_trace, callCount_flat]
    simp [callCount]
    omega
  · rw [timedCallCount_append, benchLoop_trace]
    simp [timedCallCount, nsParity, timedCallCount_flat]
  · rw [timedCallCount_append, benchLoop_trace]
    simp [timedCallCount, nsParity, timedCallCount_flat]
  · rw [memsetTimedCount_append, benchLoop_trace]
    simp [memsetTimedCount, nsParity, memsetTimedCount_flat]
  · rw [memsetCount_append, benchLoop_trace, memsetCount_flat]
    simp [memsetCount]
  · rw [memsetCount_append, benchLoop_trace, memsetCount_flat]
    simp [memsetCount]
  · rfl
  · simp only [List.drop_succ_cons, List.drop_zero, List.cons_append,
      List.nil_append]
    rw [benchLoop_trace, hos]
  · simp only [BIResult.mk.injEq, GlobalStats.mk.injEq]
    rw [imgSumC, benchLoop_sum_c]
  · simp only [BIResult.mk.injEq, GlobalStats.mk.injEq]
    rw [imgSumRVV, benchLoop_sum_rvv]

/-- Witness for C2 at `run_count = 1` on a concrete image. -/
theorem C2_protocol_witness :
    (1 : Nat) ≤ 1 ∧ envC1.load "d/a.png" = some ⟨2, 2⟩ ∧
    callCount .c (benchmark_image envC1 "d/a.png" 1 initStats).trace = 1 + 1 ∧
    timedCallCount .c (benchmark_image envC1 "d/a.png" 1 initStats).trace
      false = 1 :=
  ⟨le_refl 1, by decide,
   (C2_protocol envC1 "d/a.png" 1 initStats ⟨2, 2⟩ (le_refl 1) (by decide)).1,
   (C2_protocol envC1 "d/a.png" 1 initStats ⟨2, 2⟩ (le_refl 1)
     (by decide)).2.2.1⟩

/-- C4: for a single-file input that loads, the per-file averages printed in
the `Runs=` line are exactly the values printed as the global averages. -/
theorem C4_single_file_average (env : Env) (a0 path rstr : String)
    (rest : List String) (img : Image)
    (hstat : env.statKind path = StatKind.reg)
    (hload : env.load path = some img) :
    Line.runsReport (effRuns rstr)
        ((imgSumC env path (effRuns rstr) : ℚ) / (effRuns rstr : ℚ) / 1000000)
        ((imgSumRVV env path (effRuns rstr) : ℚ) / (effRuns rstr : ℚ) / 1000000)
      ∈ (mainRun env (a0 :: path :: rstr :: rest)).lines ∧
    Line.summaryC
        ((imgSumC env path (effRuns rstr) : ℚ) / (effRuns rstr : ℚ) / 1000000)
      ∈ (mainRun env (a0 :: path :: rstr :: rest)).lines ∧
    Line.summaryRVV
        ((imgSumRVV env path (effRuns rstr) : ℚ) / (effRuns rstr : ℚ) / 1000000)
      ∈ (mainRun env (a0 :: path :: rstr :: rest)).lines := by
  simp only [mainRun, hstat]
  rw [benchmark_image_some env path (effRuns rstr) initStats img hload]
  simp [initStats, List.mem_append, List.mem_cons]

/-- A single regular-file environment: every path is a regular file holding
a 2×2 image. -/
def envReg : Env :=
  ⟨fun _ => StatKind.reg, fun _ => none, fun _ => some ⟨2, 2⟩, fun _ i => i⟩

/-- Witness for C4 on a concrete single-file run with `run_count = 3`. -/
theorem C4_single_file_average_witness :
    envReg.statKind "img.png" = StatKind.reg ∧
    envReg.load "img.png" = some ⟨2, 2⟩ ∧
    Line.summaryC
        ((imgSumC envReg "img.png" (effRuns "3") : ℚ) / (effRuns "3" : ℚ) /
          1000000)
      ∈ (mainRun envReg ["bench", "img.png", "3"]).lines :=
  ⟨by decide, by decide,
   (C4_single_file_average envReg "bench" "img.png" "3" [] ⟨2, 2⟩ (by decide)
     (by decide)).2.1⟩

/-- C6: a qualifying entry whose image fails to decode produces exactly the
one diagnostic line naming its path, contributes nothing to the global
statistics (the final statistics are those of the scan without it), and all
remaining entries are still processed. -/
theorem C6_decode_failure (env : Env) (dirpath : String) (runs : Nat)
    (e1 e2 : List String) (bad : String)
    (hrd : env.readdir dirpath = some (e1 ++ bad :: e2))
    (hpng : pngSuffixCheck bad = true)
    (hload : env.load (dirpath ++ "/" ++ bad) = none) :
    (benchmark_directory env dirpath runs initStats).stats =
      (processEntries env dirpath runs (e1 ++ e2) initStats).stats ∧
    (benchmark_directory env dirpath runs initStats).lines =
      (processEntries env dirpath runs e1 initStats).lines ++
        Line.errorLoad (dirpath ++ "/" ++ bad) ::
          (processEntries env dirpath runs e2
            (processEntries env dirpath runs e1 initStats).stats).lines := by
  have hdot := pngSuffixCheck_not_dot hpng
  have hbad : processEntries env dirpath runs (bad :: e2)
      (processEntries env dirpath runs e1 initStats).stats =
      ⟨(processEntries env dirpath runs e2
          (processEntries env dirpath runs e1 initStats).stats).stats,
       Line.errorLoad (dirpath ++ "/" ++ bad) ::
         (processEntries env dirpath runs e2
           (processEntries env dirpath runs e1 initStats).stats).lines,
       (processEntries env dirpath runs e2
         (processEntries env dirpath runs e1 initStats).stats).trace⟩ := by
    simp only [processEntries, if_neg hdot, if_pos hpng,
      benchmark_image_none env (dirpath ++ "/" ++ bad) runs _ hload,
      List.singleton_append, List.nil_append]
  constructor
  · simp only [benchmark_directory, hrd]
    rw [processEntries_append, processEntries_append, hbad]
  · simp only [benchmark_directory, hrd]
    rw [processEntries_append, hbad]

/-- A directory `e` with a corrupt `bad0.png` between two valid images. -/
def envC6 : Env :=
  ⟨fun _ => StatKind.dir,
   fun p => if p = "e" then some ["good1.png", "bad0.png", "good2.png"] else none,
   fun p => if p = "e/bad0.png" then none else some ⟨2, 2⟩,
   fun _ _ => 0⟩

/-- Witness for C6 on the concrete directory with one corrupt file between
two valid ones; the scan still counts the two valid images. -/
theorem C6_decode_failure_witness :
    envC6.readdir "e" = some (["good1.png"] ++ "bad0.png" :: ["good2.png"]) ∧
    pngSuffixCheck "bad0.png" = true ∧
    envC6.load ("e" ++ "/" ++ "bad0.png") = none ∧
    (benchmark_directory envC6 "e" 1 initStats).stats =
      (processEntries envC6 "e" 1 (["good1.png"] ++ ["good2.png"])
        initStats).stats ∧
    (benchmark_directory envC6 "e" 1 initStats).stats.g_image_count = 2 ∧
    (benchmark_directory envC6 "e" 1 initStats).lines =
      (processEntries envC6 "e" 1 ["good1.png"] initStats).lines ++
        Line.errorLoad ("e" ++ "/" ++ "bad0.png") ::
          (processEntries envC6 "e" 1 ["good2.png"]
            (processEntries envC6 "e" 1 ["good1.png"] initStats).stats).lines :=
  ⟨by decide, by decide, by decide,
   (C6_decode_failure envC6 "e" 1 ["good1.png"] ["good2.png"] "bad0.png"
     (by decide) (by decide) (by decide)).1,
   by decide,
   (C6_decode_failure envC6 "e" 1 ["good1.png"] ["good2.png"] "bad0.png"
     (by decide) (by decide) (by decide)).2⟩

/-- When at least one image was benchmarked, the output ends with the global
header and the two global-average lines, computed from the final globals. -/
theorem mainRun_lines_count_pos (env : Env) (a0 path rstr : String)
    (rest : List String)
    (h : 0 < (mainRun env (a0 :: path :: rstr :: rest)).stats.g_image_count) :
    ∃ body : List Line,
      (mainRun env (a0 :: path :: rstr :: rest)).lines =
        body ++
          [Line.globalHeader
             (mainRun env (a0 :: path :: rstr :: rest)).stats.g_image_count,
           Line.summaryC
             (((mainRun env (a0 :: path :: rstr :: rest)).stats.g_sum_c_time_ns : ℚ) /
               (((mainRun env (a0 :: path :: rstr :: rest)).stats.g_image_count *
                   effRuns rstr : Nat) : ℚ) / 1000000),
           Line.summaryRVV
             (((mainRun env (a0 :: path :: rstr :: rest)).stats.g_sum_rvv_time_ns : ℚ) /
               (((mainRun env (a0 :: path :: rstr :: rest)).stats.g_image_count *
                   effRuns rstr : Nat) : ℚ) / 1000000)] := by
  simp only [mainRun] at h ⊢
  rw [if_pos h]
  exact ⟨_, rfl⟩

/-- When no image was benchmarked, the output is summary-free per-target
output followed by the `No PNG files were processed.` line. -/
theorem mainRun_lines_count_zero (env : Env) (a0 path rstr : String)
    (rest : List String)
    (h : (mainRun env (a0 :: path :: rstr :: rest)).stats.g_image_count = 0) :
    ∃ body : List Line,
      (mainRun env (a0 :: path :: rstr :: rest)).lines =
        body ++ [Line.noPngFiles] ∧
      ∀ l ∈ body, isSummaryLine l = false := by
  cases hstat : env.statKind path with
  | dir =>
    cases hrd : env.readdir path with
    | none =>
      refine ⟨[Line.couldNotOpenDir path], ?_, ?_⟩
      · simp [mainRun, hstat, benchmark_directory, hrd, initStats]
      · intro l hl
        simp at hl
        subst hl
        rfl
    | some entries =>
      simp only [mainRun, hstat, benchmark_directory, hrd] at h ⊢
      refine ⟨(processEntries env path (effRuns rstr) entries initStats).lines,
        ?_, ?_⟩
      · rw [if_neg (by omega)]
      · exact processEntries_no_summary env path (effRuns rstr) entries initStats
  | reg =>
    cases hload : env.load path with
    | none =>
      refine ⟨[Line.errorLoad path], ?_, ?_⟩
      · simp only [mainRun, hstat,
          benchmark_image_none env path (effRuns rstr) initStats hload]
        rw [if_neg (by simp [initStats])]
      · intro l hl
        simp at hl
        subst hl
        rfl
    | some img =>
      exfalso
      simp only [mainRun, hstat,
        benchmark_image_some env path (effRuns rstr) initStats img hload] at h
      simp [initStats] at h
  | other =>
    refine ⟨[Line.neitherFileNorDir], ?_, ?_⟩
    · simp [mainRun, hstat, initStats]
    · intro l hl
      simp at hl
      subst hl
      rfl
  | noStat =>
    refine ⟨[Line.cannotStat path], ?_, ?_⟩
    · simp [mainRun, hstat, initStats]
    · intro l hl
      simp at hl
      subst hl
      rfl

/-- C8: when zero images are benchmarked, the run prints the
`No PNG files were processed.` message and no numeric global-average lines
(so the division by `image_count * run_count` is never formed). -/
theorem C8_no_images (env : Env) (a0 path rstr : String) (rest : List String)
    (h : (mainRun env (a0 :: path :: rstr :: rest)).stats.g_image_count = 0) :
    Line.noPngFiles ∈ (mainRun env (a0 :: path :: rstr :: rest)).lines ∧
    (∀ n : Nat, Line.globalHeader n ∉
      (mainRun env (a0 :: path :: rstr :: rest)).lines) ∧
    (∀ q : ℚ, Line.summaryC q ∉
      (mainRun env (a0 :: path :: rstr :: rest)).lines) ∧
    (∀ q : ℚ, Line.summaryRVV q ∉
      (mainRun env (a0 :: path :: rstr :: rest)).lines) := by
  obtain ⟨body, hb, hs⟩ := mainRun_lines_count_zero env a0 path rstr rest h
  rw [hb]
  refine ⟨by simp, ?_, ?_, ?_⟩
  · intro n hn
    rcases List.mem_append.1 hn with hn | hn
    · have := hs _ hn
      simp [isSummaryLine] at this
    · simp at hn
  · intro q hq
    rcases List.mem_append.1 hq with hq | hq
    · have := hs _ hq
      simp [isSummaryLine] at this
    · simp at hq
  · intro q hq
    rcases List.mem_append.1 hq with hq | hq
    · have := hs _ hq
      simp [isSummaryLine] at this
    · simp at hq

/-- Witness for C8 on a run whose input path cannot be stat'd. -/
theorem C8_no_images_witness :
    (mainRun envNoStat ["bench", "x", "1"]).stats.g_image_count = 0 ∧
    Line.noPngFiles ∈ (mainRun envNoStat ["bench", "x", "1"]).lines ∧
    (∀ n : Nat, Line.globalHeader n ∉ (mainRun envNoStat ["bench", "x", "1"]).lines) :=
  ⟨by decide,
   (C8_no_images envNoStat "bench" "x" "1" [] (by decide)).1,
   (C8_no_images envNoStat "bench" "x" "1" [] (by decide)).2.1⟩

/-- C3: with at least one image benchmarked, each printed global average is
that routine's cumulative nanoseconds — the sum over all successfully loaded
targets of their total (not averaged) `run_count`-iteration elapsed time —
divided by `image_count * run_count`, then by `1e6`. -/
theorem C3_global_average (env : Env) (a0 path rstr : String)
    (rest : List String)
    (h : 0 < (mainRun env (a0 :: path :: rstr :: rest)).stats.g_image_count) :
    (mainRun env (a0 :: path :: rstr :: rest)).stats.g_sum_c_time_ns =
      ((okTargets env path).map (fun q => imgSumC env q (effRuns rstr))).sum ∧
    (mainRun env (a0 :: path :: rstr :: rest)).stats.g_sum_rvv_time_ns =
      ((okTargets env path).map (fun q => imgSumRVV env q (effRuns rstr))).sum ∧
    (mainRun env (a0 :: path :: rstr :: rest)).stats.g_image_count =
      (okTargets env path).length ∧
    Line.summaryC
        (((mainRun env (a0 :: path :: rstr :: rest)).stats.g_sum_c_time_ns : ℚ) /
          (((mainRun env (a0 :: path :: rstr :: rest)).stats.g_image_count *
              effRuns rstr : Nat) : ℚ) / 1000000)
      ∈ (mainRun env (a0 :: path :: rstr :: rest)).lines ∧
    Line.summaryRVV
        (((mainRun env (a0 :: path :: rstr :: rest)).stats.g_sum_rvv_time_ns : ℚ) /
          (((mainRun env (a0 :: path :: rstr :: rest)).stats.g_image_count *
              effRuns rstr : Nat) : ℚ) / 1000000)
      ∈ (mainRun env (a0 :: path :: rstr :: rest)).lines := by
  have hs := mainRun_stats env a0 path rstr rest
  obtain ⟨body, hb⟩ := mainRun_lines_count_pos env a0 path rstr rest h
  refine ⟨by rw [hs], by rw [hs], by rw [hs], ?_, ?_⟩
  · rw [hb]
    simp
  · rw [hb]
    simp

/-- Witness for C3 on a concrete single-file run with `run_count = 3`. -/
theorem C3_global_average_witness :
    0 < (mainRun envReg ["bench", "img.png", "3"]).stats.g_image_count ∧
    (mainRun envReg ["bench", "img.png", "3"]).stats.g_sum_c_time_ns =
      ((okTargets envReg "img.png").map
        (fun q => imgSumC envReg q (effRuns "3"))).sum ∧
    (mainRun envReg ["bench", "img.png", "3"]).stats.g_image_count =
      (okTargets envReg "img.png").length :=
  ⟨by decide,
   (C3_global_average envReg "bench" "img.png" "3" [] (by decide)).1,
   (C3_global_average envReg "bench" "img.png" "3" [] (by decide)).2.2.1⟩
